import Mathlib

/-!
Shallow embedding of the email-onedrive-mcp server (server.py, email_processor.py,
onedrive_handler.py, file_compressor.py, config.py) and proofs about its behaviour.

External services (Gmail API, Microsoft Graph, MSAL) are modelled as deterministic
oracles carried in a `World` structure; the filesystem is an explicit association
list from paths to file values; every externally visible action is recorded in an
event trace.
-/

namespace EmailOnedrive

/-! ### Decimal rendering of naturals (Python f-string `f"{i}"`) -/

/-- Character for a single decimal digit d (0..9), i.e. chr(48+d). -/
def digitChr (d : Nat) : Char := Char.ofNat (48 + d)

/-- Accumulator-style decimal digits of `n` (most significant first), with fuel.
Fuel `n` always suffices since `n / 10 < n` for positive `n`. -/
def natDecAux : Nat → Nat → List Char → List Char
  | 0, _, acc => acc
  | fuel + 1, n, acc =>
    if n = 0 then acc else natDecAux fuel (n / 10) (digitChr (n % 10) :: acc)

/-- Decimal rendering of a natural number, as produced by Python string formatting. -/
def natDec (n : Nat) : String :=
  if n = 0 then "0" else ⟨natDecAux n n []⟩

/-- Value of a big-endian list of decimal digit characters. -/
def decVal : List Char → Nat
  | [] => 0
  | c :: cs => (c.toNat - 48) * 10 ^ cs.length + decVal cs

theorem digitChr_toNat (d : Nat) (hd : d < 10) : (digitChr d).toNat - 48 = d := by
  revert hd; revert d; decide

theorem natDecAux_length_le (fuel n : Nat) (acc : List Char) :
    acc.length ≤ (natDecAux fuel n acc).length := by
  induction fuel generalizing n acc with
  | zero => simp [natDecAux]
  | succ f ih =>
    simp only [natDecAux]
    split
    · exact Nat.le_refl _
    · exact Nat.le_trans (by simp) (ih (n / 10) (digitChr (n % 10) :: acc))

theorem decVal_natDecAux (fuel : Nat) : ∀ n acc, n ≤ fuel →
    decVal (natDecAux fuel n acc) = n * 10 ^ acc.length + decVal acc := by
  induction fuel with
  | zero =>
    intro n acc hn
    have : n = 0 := Nat.le_zero.mp hn
    subst this
    simp [natDecAux]
  | succ f ih =>
    intro n acc hn
    simp only [natDecAux]
    split
    · subst ‹n = 0›; simp
    · have hnpos : 0 < n := Nat.pos_of_ne_zero ‹n ≠ 0›
      have hdiv : n / 10 ≤ f := by
        have h1 : n / 10 < n := Nat.div_lt_self hnpos (by decide)
        omega
      rw [ih (n / 10) (digitChr (n % 10) :: acc) hdiv]
      have hd : (digitChr (n % 10)).toNat - 48 = n % 10 :=
        digitChr_toNat _ (Nat.mod_lt _ (by decide))
      simp only [decVal, List.length_cons, hd]
      have hmod : 10 * (n / 10) + n % 10 = n := Nat.div_add_mod n 10
      have : n / 10 * 10 ^ (acc.length + 1) + n % 10 * 10 ^ acc.length
          = n * 10 ^ acc.length := by
        rw [pow_succ]
        calc n / 10 * (10 ^ acc.length * 10) + n % 10 * 10 ^ acc.length
            = (10 * (n / 10) + n % 10) * 10 ^ acc.length := by ring
          _ = n * 10 ^ acc.length := by rw [hmod]
      omega

theorem decVal_natDec (n : Nat) : decVal (natDec n).data = n := by
  by_cases h : n = 0
  · subst h; decide
  · simp only [natDec, h, if_false]
    have := decVal_natDecAux n n [] (Nat.le_refl n)
    simpa [decVal] using this

theorem natDec_injective : Function.Injective natDec := by
  intro a b hab
  have : decVal (natDec a).data = decVal (natDec b).data := by rw [hab]
  rwa [decVal_natDec, decVal_natDec] at this

theorem natDec_ne_empty (n : Nat) : (natDec n).data ≠ [] := by
  by_cases h : n = 0
  · subst h; decide
  · simp only [natDec, h, if_false]
    intro hc
    have h1 := natDecAux_length_le n n []
    match hn : n, h with
    | Nat.succ m, _ =>
      simp only [natDecAux] at hc
      rw [if_neg (Nat.succ_ne_zero m)] at hc
      have h2 := natDecAux_length_le m (Nat.succ m / 10) [digitChr (Nat.succ m % 10)]
      rw [hc] at h2
      simp at h2

/-! ### POSIX path helpers (os.path.*) -/

/-- Test for an absolute POSIX path (os.path.isabs): starts with a slash. -/
def isAbsPath (p : String) : Bool := p.data.head? == some '/'

/-- Characters of the last path component (os.path.basename): the maximal
slash-free suffix. -/
def baseNameChars (cs : List Char) : List Char :=
  (cs.reverse.takeWhile (fun c => c ≠ '/')).reverse

/-- Last path component of a path (os.path.basename). -/
def basename (p : String) : String := ⟨baseNameChars p.data⟩

/-- Test whether a string ends with a slash (used by os.path.join). -/
def endsWithSlash (p : String) : Bool := p.data.getLast? == some '/'

/-- Join of two POSIX paths (os.path.join for two components): an absolute
second component replaces the first; otherwise a separating slash is inserted
unless the first component is empty or already ends with one. -/
def pathJoin (a b : String) : String :=
  if isAbsPath b then b
  else if a = "" then b
  else if endsWithSlash a then a ++ b
  else a ++ "/" ++ b

/-- Split a character list at its last dot: returns the part before the dot and
the part from the dot on, or none when no dot occurs. -/
def splitLastDot : List Char → Option (List Char × List Char)
  | [] => none
  | c :: rest =>
    match splitLastDot rest with
    | some (a, b) => some (c :: a, b)
    | none => if c = '.' then some ([], c :: rest) else none

/-- Split a path into root and extension (os.path.splitext): the extension
starts at the last dot of the final component, unless that component consists
only of leading dots up to it. -/
def splitExt (p : String) : String × String :=
  let name := baseNameChars p.data
  let dir := p.data.take (p.data.length - name.length)
  let lead := name.takeWhile (fun c => c = '.')
  let rest := name.drop lead.length
  match splitLastDot rest with
  | some (a, b) => (⟨dir ++ lead ++ a⟩, ⟨b⟩)
  | none => (p, "")

/-- Replacement of backslashes by forward slashes (str.replace of the server). -/
def replaceBackslash (s : String) : String :=
  ⟨s.data.map (fun c => if c = '\\' then '/' else c)⟩

/-- Boolean string suffix test on character data (str.endswith). -/
def strEndsWith (s suf : String) : Bool := suf.data.isSuffixOf s.data

/-- Boolean string prefix test on character data (str.startswith). -/
def strStarts (pre s : String) : Bool := pre.data.isPrefixOf s.data

/-- Boolean substring test on character data (the Python in operator on
strings). -/
def strContains (s sub : String) : Bool :=
  (List.range (s.data.length + 1)).any (fun i => sub.data.isPrefixOf (s.data.drop i))

theorem splitLastDot_append (cs : List Char) :
    ∀ a b, splitLastDot cs = some (a, b) → cs = a ++ b := by
  induction cs with
  | nil => intro a b h; simp [splitLastDot] at h
  | cons c rest ih =>
    intro a b h
    simp only [splitLastDot] at h
    cases hrec : splitLastDot rest with
    | some pr =>
      rw [hrec] at h
      obtain ⟨a1, b1⟩ := pr
      simp only [Option.some.injEq, Prod.mk.injEq] at h
      obtain ⟨ha, hb⟩ := h
      subst ha; subst hb
      simpa using congrArg (c :: ·) (ih a1 b1 hrec)
    | none =>
      rw [hrec] at h
      by_cases hc : c = '.'
      · rw [if_pos hc] at h
        simp only [Option.some.injEq, Prod.mk.injEq] at h
        obtain ⟨ha, hb⟩ := h
        subst ha; subst hb
        simp
      · rw [if_neg hc] at h
        simp at h

theorem baseNameChars_suffix (cs : List Char) :
    cs.take (cs.length - (baseNameChars cs).length) ++ baseNameChars cs = cs := by
  have h1 : (cs.reverse.takeWhile (fun c => c ≠ '/')) <+: cs.reverse :=
    List.takeWhile_prefix _
  have h2 : baseNameChars cs <:+ cs := by
    have h3 := List.reverse_suffix.mpr h1
    simpa [baseNameChars] using h3
  obtain ⟨pre, hpre⟩ := h2
  have hlen : pre.length = cs.length - (baseNameChars cs).length := by
    have := congrArg List.length hpre
    simp at this
    omega
  have htake : cs.take pre.length = pre := by
    rw [← hpre]; simp
  rw [← hlen, htake, hpre]

theorem splitExt_append (p : String) :
    (splitExt p).1 ++ (splitExt p).2 = p := by
  simp only [splitExt]
  set name := baseNameChars p.data with hname
  set lead := name.takeWhile (fun c => c = '.') with hlead
  set rest := name.drop lead.length with hrest
  have hleadrest : lead ++ rest = name := by
    have : lead = name.take lead.length := by
      have hp : lead <+: name := List.takeWhile_prefix _
      obtain ⟨t, ht⟩ := hp
      rw [← ht]; simp
    rw [this, hrest, List.take_append_drop]
  have hdir : p.data.take (p.data.length - name.length) ++ name = p.data :=
    baseNameChars_suffix p.data
  match hsplit : splitLastDot rest with
  | some (a, b) =>
    have hab : rest = a ++ b := splitLastDot_append rest a b hsplit
    apply String.ext
    show (p.data.take (p.data.length - name.length) ++ lead ++ a) ++ b = p.data
    calc (p.data.take (p.data.length - name.length) ++ lead ++ a) ++ b
        = p.data.take (p.data.length - name.length) ++ (lead ++ (a ++ b)) := by
          simp [List.append_assoc]
      _ = p.data.take (p.data.length - name.length) ++ (lead ++ rest) := by rw [← hab]
      _ = p.data.take (p.data.length - name.length) ++ name := by rw [hleadrest]
      _ = p.data := hdir
  | none =>
    apply String.ext
    show p.data ++ ([] : List Char) = p.data
    simp

/-! ### Filesystem model -/

/-- Value stored at a path: plain bytes, or a zip archive given by its entry
names in write order. -/
inductive FileVal where
  | bin (content : String)
  | zip (entries : List String)
deriving DecidableEq

/-- Filesystem: association list from paths to file values; the most recent
write for a path comes first (open for writing overwrites). Directories are not
tracked. -/
structure FS where
  files : List (String × FileVal)
deriving DecidableEq

/-- Existence test for a path (os.path.exists restricted to tracked files). -/
def FS.existsPath (fs : FS) (p : String) : Bool := fs.files.any (fun e => e.1 == p)

/-- Write a file at a path, shadowing any earlier value. -/
def FS.insert (fs : FS) (p : String) (v : FileVal) : FS := ⟨(p, v) :: fs.files⟩

/-- Content lookup for a path. -/
def FS.lookup (fs : FS) (p : String) : Option FileVal :=
  (fs.files.find? (fun e => e.1 == p)).map Prod.snd

/-- Recursive removal of a directory (shutil.rmtree): drops every tracked file
whose path lies strictly under the directory. -/
def FS.removeTree (fs : FS) (dir : String) : FS :=
  ⟨fs.files.filter (fun e => !(strStarts (dir ++ "/") e.1))⟩

theorem FS.existsPath_insert_self (fs : FS) (p : String) (v : FileVal) :
    (fs.insert p v).existsPath p = true := by
  simp [FS.insert, FS.existsPath]

theorem FS.existsPath_insert_mono (fs : FS) (p q : String) (v : FileVal)
    (h : fs.existsPath q = true) : (fs.insert p v).existsPath q = true := by
  simp only [FS.insert, FS.existsPath, List.any_cons, Bool.or_eq_true] at h ⊢
  exact Or.inr h

theorem FS.not_existsPath_removeTree (fs : FS) (dir p : String)
    (h : strStarts (dir ++ "/") p = true) : (fs.removeTree dir).existsPath p = false := by
  simp only [FS.removeTree, FS.existsPath, List.any_eq_true, not_exists]
  rw [Bool.eq_false_iff]
  intro hc
  obtain ⟨e, hmem, heq⟩ := List.any_eq_true.mp hc
  have he := List.of_mem_filter hmem
  have : e.1 = p := by simpa using heq
  rw [this] at he
  rw [h] at he
  simp at he

/-! ### Filename collision resolution of download_attachments_from_messages -/

/-- Candidate save names tried by the collision loop: first the original path,
then root_1.ext, root_2.ext, and so on. -/
def candSeq (savePath root ext : String) : Nat → String
  | 0 => savePath
  | k + 1 => root ++ "_" ++ natDec (k + 1) ++ ext

/-- Fuel-bounded scan for the first candidate index whose name is not taken,
mirroring the while-loop over os.path.exists. The fuel is chosen large enough
that it never runs out (see scanFree_not_exists and exists_free_cand). -/
def scanFree (fs : FS) (cand : Nat → String) : Nat → Nat → String
  | 0, i => cand i
  | f + 1, i => if fs.existsPath (cand i) then scanFree fs cand f (i + 1) else cand i

/-- Unique save path chosen for a desired path: the exact collision policy of
download_attachments_from_messages lines 107-113. -/
def resolveName (fs : FS) (savePath : String) : String :=
  let root := (splitExt savePath).1
  let ext := (splitExt savePath).2
  scanFree fs (candSeq savePath root ext) (fs.files.length + 1) 0

theorem candSeq_injective (savePath root ext : String)
    (hid : savePath = root ++ ext) : Function.Injective (candSeq savePath root ext) := by
  have hdata : ∀ k, (candSeq savePath root ext (k + 1)).data
      = root.data ++ '_' :: ((natDec (k + 1)).data ++ ext.data) := by
    intro k
    simp [candSeq, String.data_append]
  intro a b hab
  match a, b with
  | 0, 0 => rfl
  | 0, k + 1 =>
    exfalso
    have h1 : (candSeq savePath root ext 0).data = root.data ++ ext.data := by
      simp [candSeq, hid, String.data_append]
    have h2 := hdata k
    rw [hab] at h1
    rw [h2] at h1
    have hlen := congrArg List.length h1
    have hne := natDec_ne_empty (k + 1)
    have : 0 < (natDec (k + 1)).data.length := List.length_pos.mpr hne
    simp at hlen
    omega
  | j + 1, 0 =>
    exfalso
    have h1 : (candSeq savePath root ext 0).data = root.data ++ ext.data := by
      simp [candSeq, hid, String.data_append]
    have h2 := hdata j
    rw [← hab] at h1
    rw [h2] at h1
    have hlen := congrArg List.length h1
    have hne := natDec_ne_empty (j + 1)
    have : 0 < (natDec (j + 1)).data.length := List.length_pos.mpr hne
    simp at hlen
    omega
  | j + 1, k + 1 =>
    have h1 : (candSeq savePath root ext (j + 1)).data
        = (candSeq savePath root ext (k + 1)).data := by rw [hab]
    rw [hdata j, hdata k] at h1
    have h2 := List.append_cancel_left h1
    have h3 : (natDec (j + 1)).data ++ ext.data = (natDec (k + 1)).data ++ ext.data := by
      injection h2
    have h4 := List.append_cancel_right h3
    have h5 : natDec (j + 1) = natDec (k + 1) := String.ext h4
    have := natDec_injective h5
    omega

theorem exists_free_cand (fs : FS) (cand : Nat → String)
    (hinj : Function.Injective cand) :
    ∃ k, k < fs.files.length + 1 ∧ fs.existsPath (cand k) = false := by
  by_contra hc
  push_neg at hc
  have hall : ∀ k, k < fs.files.length + 1 → fs.existsPath (cand k) = true := by
    intro k hk
    have := hc k hk
    cases hb : fs.existsPath (cand k) with
    | false => exact absurd hb this
    | true => rfl
  set n := fs.files.length with hn
  have hsub : Finset.image cand (Finset.range (n + 1)) ⊆
      (fs.files.map Prod.fst).toFinset := by
    intro x hx
    obtain ⟨k, hk, hxk⟩ := Finset.mem_image.mp hx
    subst hxk
    have hmem := hall k (Finset.mem_range.mp hk)
    obtain ⟨e, he, heq⟩ := List.any_eq_true.mp hmem
    have : e.1 = cand k := by simpa using heq
    rw [List.mem_toFinset]
    exact this ▸ List.mem_map_of_mem Prod.fst he
  have hcard1 : (Finset.image cand (Finset.range (n + 1))).card = n + 1 := by
    rw [Finset.card_image_of_injective _ hinj, Finset.card_range]
  have hcard2 : (fs.files.map Prod.fst).toFinset.card ≤ n := by
    calc (fs.files.map Prod.fst).toFinset.card ≤ (fs.files.map Prod.fst).length :=
          (fs.files.map Prod.fst).toFinset_card_le
      _ = n := by simp [hn]
  have := Finset.card_le_card hsub
  omega

theorem scanFree_not_exists (fs : FS) (cand : Nat → String) :
    ∀ f i, (∃ k, k < f ∧ fs.existsPath (cand (i + k)) = false) →
    fs.existsPath (scanFree fs cand f i) = false := by
  intro f
  induction f with
  | zero => intro i h; obtain ⟨k, hk, _⟩ := h; omega
  | succ f ih =>
    intro i h
    simp only [scanFree]
    cases hb : fs.existsPath (cand i) with
    | false => simpa using hb
    | true =>
      simp only [if_true]
      obtain ⟨k, hk, hfree⟩ := h
      match k with
      | 0 => rw [Nat.add_zero, hb] at hfree; cases hfree
      | k + 1 =>
        apply ih (i + 1)
        refine ⟨k, by omega, ?_⟩
        have : i + 1 + k = i + (k + 1) := by omega
        rw [this]
        exact hfree

theorem resolveName_not_exists (fs : FS) (sp : String) :
    fs.existsPath (resolveName fs sp) = false := by
  have hid : sp = (splitExt sp).1 ++ (splitExt sp).2 := (splitExt_append sp).symm
  have hinj := candSeq_injective sp (splitExt sp).1 (splitExt sp).2 hid
  have hfree := exists_free_cand fs _ hinj
  apply scanFree_not_exists
  obtain ⟨k, hk, hf⟩ := hfree
  exact ⟨k, hk, by simpa using hf⟩

/-! ### Data model and oracles for the external services -/

/-- Configuration values of config.py (Settings), with their defaults. -/
structure Settings where
  GOOGLE_CREDENTIALS_FILE : String := "credentials.json"
  GOOGLE_TOKEN_FILE : String := "token.json"
  MSFT_CLIENT_ID : String := ""
  MSFT_CLIENT_SECRET : String := ""
  MSFT_TENANT_ID : String := "common"
  MSAL_TOKEN_FILE : String := "msal_token.json"
deriving DecidableEq

/-- Google OAuth credentials as seen through the google-auth object flags used
by build_gmail_service. -/
structure GCreds where
  valid : Bool
  expired : Bool
  hasRefreshToken : Bool
deriving DecidableEq

/-- An authorized Gmail service handle (result of googleapiclient build). -/
structure GmailService where
  creds : GCreds
deriving DecidableEq

/-- MSAL token response: presence of the access_token key, plus the textual
rendition used in the failure message. -/
structure MsalResult where
  access_token : Option String
  asStr : String
deriving DecidableEq

/-- One MIME part of a Gmail message: its filename (empty string for an unnamed
part, matching Python falsiness of a missing or empty filename) and the
optional attachmentId of its body. -/
structure MsgPart where
  filename : String
  attachmentId : Option String
deriving DecidableEq

/-- A Gmail message resource: identifier, whether the payload key and the
payload.parts key are present, and the list of parts. -/
structure Msg where
  id : String
  payloadPresent : Bool
  partsPresent : Bool
  parts : List MsgPart
deriving DecidableEq

/-- Result of the Gmail send call. -/
structure SendRes where
  id : Option String
deriving DecidableEq

/-- Externally visible actions, recorded in order. -/
inductive Event where
  | mkdtemp (dir : String)
  | oauthLocalFlow
  | writeTokenStore (path : String)
  | buildService
  | gmailList
  | gmailGet (id : String)
  | gmailAttachGet (mid aid : String)
  | gmailSend
  | msalSilent
  | msalClientCred
  | msalDeviceInit
  | msalDeviceFlow
  | httpPut (url : String)
  | fsWrite (path : String)
  | zipCreate (path : String)
  | rmtree (dir : String)
deriving DecidableEq

/-- Network calls to either provider. -/
def Event.isNetwork : Event → Bool
  | .oauthLocalFlow | .gmailList | .gmailGet _ | .gmailAttachGet _ _ | .gmailSend
  | .msalSilent | .msalClientCred | .msalDeviceInit | .msalDeviceFlow | .httpPut _ => true
  | _ => false

/-- Calls to the storage provider (token acquisition and uploads). -/
def Event.isStorageCall : Event → Bool
  | .msalSilent | .msalClientCred | .msalDeviceInit | .msalDeviceFlow | .httpPut _ => true
  | _ => false

/-- MSAL token-acquisition traffic. -/
def Event.isMsal : Event → Bool
  | .msalSilent | .msalClientCred | .msalDeviceInit | .msalDeviceFlow => true
  | _ => false

/-- Archive creation. -/
def Event.isArchiveCall : Event → Bool
  | .zipCreate _ => true
  | _ => false

/-- Outgoing-mail send call. -/
def Event.isSendCall : Event → Bool
  | .gmailSend => true
  | _ => false

/-- Python exceptions that can cross stage boundaries in this code. -/
inductive Exc where
  | http (status : Nat) (detail : String)
  | fileNotFound (msg : String)
  | runtime (msg : String)
  | keyError (key : String)
deriving DecidableEq

/-- Rendering str(e) of an exception: starlette HTTPException prints
"status: detail", FileNotFoundError and RuntimeError print their message,
KeyError prints its quoted key (quoting elided here). -/
def excStr : Exc → String
  | .http s d => natDec s ++ ": " ++ d
  | .fileNotFound m => m
  | .runtime m => m
  | .keyError k => k

/-- Deterministic oracles for everything outside the process: provider
responses, the MSAL and OAuth flows, the per-invocation temporary directory
name and the working directory. -/
structure World where
  settings : Settings
  workDir : String
  cwd : String
  tokenFileCreds : GCreds
  flowCreds : GCreds
  flowCredsJson : String
  gmailHttpError : Option String
  msgs : List Msg
  attachData : String → String → String
  sendOutcome : Except String String
  msalAccounts : Bool
  msalSilentResult : Option MsalResult
  msalClientCredResult : MsalResult
  msalDeviceHasUserCode : Bool
  msalDeviceResult : MsalResult
  putResp : String → Nat × String

/-! ### email_processor.py -/

/-- Construction of an authorized Gmail service (build_gmail_service).
The refresh call `creds.refresh(Request())` raises NameError at runtime
because Request is never imported in email_processor.py; the surrounding
except clause then sets creds to None, so the refresh branch always falls
through to the interactive flow. -/
def build_gmail_service (w : World) (fs : FS) : Except Exc GmailService × List Event × FS :=
  let tokenPath := w.settings.GOOGLE_TOKEN_FILE
  let credPath := w.settings.GOOGLE_CREDENTIALS_FILE
  let flowBranch : Except Exc GmailService × List Event × FS :=
    if fs.existsPath credPath then
      (.ok ⟨w.flowCreds⟩, [.oauthLocalFlow, .writeTokenStore tokenPath, .buildService],
        fs.insert tokenPath (.bin w.flowCredsJson))
    else
      (.error (.fileNotFound
        "Google credentials file not found. See README to create credentials.json."), [], fs)
  if fs.existsPath tokenPath then
    let c := w.tokenFileCreds
    if c.valid then (.ok ⟨c⟩, [.buildService], fs)
    else if c.expired && c.hasRefreshToken then flowBranch
    else (.ok ⟨c⟩, [.buildService], fs)
  else flowBranch

/-- Filter used by the search: the message has a payload with a parts key and
at least one part with a truthy filename. -/
def hasNamedPart (m : Msg) : Bool :=
  m.payloadPresent && m.partsPresent && m.parts.any (fun p => p.filename ≠ "")

/-- Search for messages with attachments (search_messages_with_attachments).
The oracle fixes the provider responses for the single query an invocation
makes; an HttpError anywhere in the try block is modelled by gmailHttpError. -/
def search_messages_with_attachments (w : World) (svc : GmailService)
    (q : String) (maxResults : Int) : Except Exc (List Msg) × List Event :=
  match w.gmailHttpError with
  | some e => (.error (.runtime ("Gmail API error during search: " ++ e)), [.gmailList])
  | none => (.ok (w.msgs.filter hasNamedPart),
      .gmailList :: w.msgs.map (fun m => Event.gmailGet m.id))

/-- Inner loop of download_attachments_from_messages over the parts of one
message: named parts with an attachmentId are fetched and written under the
collision-resolved unique name; parts without a truthy filename or without an
attachmentId are skipped. The base64url decoding of the payload is treated as
opaque on the oracle bytes. -/
def downloadParts (w : World) (mid : String) (folder : String) :
    List MsgPart → FS → List String × List Event × FS
  | [], fs => ([], [], fs)
  | part :: rest, fs =>
    if part.filename ≠ "" then
      match part.attachmentId with
      | some aid =>
        let dataStr := w.attachData mid aid
        let savePath := resolveName fs (pathJoin folder part.filename)
        let fs1 := fs.insert savePath (.bin dataStr)
        let out := downloadParts w mid folder rest fs1
        (savePath :: out.1, .gmailAttachGet mid aid :: .fsWrite savePath :: out.2.1, out.2.2)
      | none => downloadParts w mid folder rest fs
    else downloadParts w mid folder rest fs

/-- Outer loop of download_attachments_from_messages over messages. Accessing
msg["payload"] raises KeyError when the key is missing. -/
def downloadMsgs (w : World) (folder : String) :
    List Msg → FS → Except Exc (List String) × List Event × FS
  | [], fs => (.ok [], [], fs)
  | m :: rest, fs =>
    if m.payloadPresent then
      let parts := if m.partsPresent then m.parts else []
      let out1 := downloadParts w m.id folder parts fs
      match downloadMsgs w folder rest out1.2.2 with
      | (.ok files2, evs2, fs2) => (.ok (out1.1 ++ files2), out1.2.1 ++ evs2, fs2)
      | (.error e, evs2, fs2) => (.error e, out1.2.1 ++ evs2, fs2)
    else (.error (.keyError "payload"), [], fs)

/-- Attachment download (download_attachments_from_messages). The
os.makedirs(download_folder, exist_ok=True) call only touches directories,
which are untracked. -/
def download_attachments_from_messages (w : World) (msgs : List Msg)
    (folder : String) (fs : FS) : Except Exc (List String) × List Event × FS :=
  downloadMsgs w folder msgs fs

/-- Sending a message with one attachment (send_message_with_attachment). -/
def send_message_with_attachment (w : World) (svc : GmailService)
    (toAddr subject bodyText filePath : String) (fs : FS) :
    Except Exc SendRes × List Event × FS :=
  if fs.existsPath filePath then
    match w.sendOutcome with
    | .ok msgId => (.ok ⟨some msgId⟩, [.gmailSend], fs)
    | .error e => (.error (.runtime ("Failed to send message: " ++ e)), [.gmailSend], fs)
  else (.error (.fileNotFound ("Attachment not found: " ++ filePath)), [], fs)

/-! ### onedrive_handler.py -/

/-- Presence check of the access_token key in an MSAL result. -/
def tokenCheck (r : MsalResult) : Except Exc MsalResult :=
  if r.access_token.isNone then
    .error (.runtime ("Could not obtain access token: " ++ r.asStr))
  else .ok r

/-- Fresh acquisition taken when no silent result is available: client
credentials when a client secret is configured, device flow otherwise. -/
def onedriveAcquireFresh (w : World) (fs : FS) (pre : List Event) :
    Except Exc MsalResult × List Event × FS :=
  if w.settings.MSFT_CLIENT_SECRET ≠ "" then
    (tokenCheck w.msalClientCredResult, pre ++ [Event.msalClientCred], fs)
  else if w.msalDeviceHasUserCode then
    (tokenCheck w.msalDeviceResult, pre ++ [Event.msalDeviceInit, Event.msalDeviceFlow], fs)
  else
    (.error (.runtime "Failed to create device flow. Check MSAL configuration."),
      pre ++ [Event.msalDeviceInit], fs)

/-- Token acquisition for Microsoft Graph (get_onedrive_access_token). The
function never writes the token to disk: the final comment in the source notes
persistence as optional and no cache is configured. -/
def get_onedrive_access_token (w : World) (fs : FS) :
    Except Exc MsalResult × List Event × FS :=
  if w.msalAccounts then
    match w.msalSilentResult with
    | some r => (tokenCheck r, [Event.msalSilent], fs)
    | none => onedriveAcquireFresh w fs [Event.msalSilent]
  else onedriveAcquireFresh w fs []

/-- Simple content upload to OneDrive (upload_file_to_onedrive_path). -/
def upload_file_to_onedrive_path (w : World) (tok : MsalResult)
    (localPath remotePath : String) (fs : FS) : Except Exc String × List Event × FS :=
  match tok.access_token with
  | none => (.error (.runtime "Missing access token"), [], fs)
  | some _ =>
    let url := "https://graph.microsoft.com/v1.0/me/drive/root:/" ++ remotePath ++ ":/content"
    if fs.existsPath localPath then
      let sc := (w.putResp url).1
      let bodyText := (w.putResp url).2
      if sc = 200 ∨ sc = 201 then (.ok bodyText, [.httpPut url], fs)
      else (.error (.runtime ("OneDrive upload failed: " ++ natDec sc ++ " - " ++ bodyText)),
        [.httpPut url], fs)
    else (.error (.fileNotFound ("No such file or directory: " ++ localPath)), [], fs)

/-! ### file_compressor.py -/

/-- Archive creation (compress_files). Opening ZipFile(output_zip, "w")
creates or truncates the archive file immediately; entries are then added one
by one, and the first missing input raises FileNotFoundError, leaving the
archive on disk with the entries written so far (the with-block closes it). -/
def compress_files (paths : List String) (outputZip : String) (fs : FS) :
    Except Exc Unit × List Event × FS :=
  let fs1 := fs.insert outputZip (.zip [])
  match paths.find? (fun f => !(fs1.existsPath f)) with
  | some f =>
    let written := (paths.takeWhile (fun g => fs1.existsPath g)).map basename
    (.error (.fileNotFound ("File does not exist: " ++ f)), [.zipCreate outputZip],
      fs.insert outputZip (.zip written))
  | none =>
    (.ok (), [.zipCreate outputZip], fs.insert outputZip (.zip (paths.map basename)))

/-! ### server.py -/

/-- The JSON input mapping of a run request, restricted to the keys the tool
schemas mention; a none field models an absent key. -/
structure Input where
  query : Option String := none
  max_results : Option Int := none
  local_paths : Option (List String) := none
  remote_folder_path : Option String := none
  output_zip : Option String := none
  toAddr : Option String := none
  subject : Option String := none
  body : Option String := none
  zip_path : Option String := none
  onedrive_folder : Option String := none
  recipient_email : Option String := none
  zip_name : Option String := none
deriving DecidableEq

/-- Success payload of a tool run: the JSON keys each branch returns, with
none for keys the branch does not set. -/
structure Payload where
  status : Option String := none
  downloaded_files : Option (List String) := none
  uploaded : Option (List String) := none
  zip_path : Option String := none
  send_result : Option SendRes := none
  result : Option SendRes := none
deriving DecidableEq

/-- Names of the registered tools, in registry order. -/
def TOOL_NAMES : List String :=
  ["search_and_download_attachments", "upload_to_onedrive", "compress_files",
   "send_zip_via_email", "orchestrate_full_pipeline"]

/-- Required input fields of each tool schema, in schema order. -/
def requiredOf : String → List String
  | "search_and_download_attachments" => ["query", "max_results"]
  | "upload_to_onedrive" => ["local_paths", "remote_folder_path"]
  | "compress_files" => ["local_paths", "output_zip"]
  | "send_zip_via_email" => ["to", "subject", "body", "zip_path"]
  | "orchestrate_full_pipeline" =>
      ["query", "max_results", "onedrive_folder", "recipient_email", "zip_name"]
  | _ => []

/-- Membership of a key in the input mapping (the `r in data` test). -/
def hasField (d : Input) : String → Bool
  | "query" => d.query.isSome
  | "max_results" => d.max_results.isSome
  | "local_paths" => d.local_paths.isSome
  | "remote_folder_path" => d.remote_folder_path.isSome
  | "output_zip" => d.output_zip.isSome
  | "to" => d.toAddr.isSome
  | "subject" => d.subject.isSome
  | "body" => d.body.isSome
  | "zip_path" => d.zip_path.isSome
  | "onedrive_folder" => d.onedrive_folder.isSome
  | "recipient_email" => d.recipient_email.isSome
  | "zip_name" => d.zip_name.isSome
  | _ => false

/-- Per-file loop of the upload_to_onedrive branch: resolve relative paths
against the working directory, fail with HTTPException 400 when the file does
not exist, otherwise upload to remote_folder joined with the base name. -/
def uploadLoopTool (w : World) (tok : MsalResult) (remoteFolder : String) :
    List String → FS → Except Exc (List String) × List Event × FS
  | [], fs => (.ok [], [], fs)
  | lp :: rest, fs =>
    let lp1 := if isAbsPath lp then lp else pathJoin w.cwd lp
    if fs.existsPath lp1 then
      let remotePath := replaceBackslash (pathJoin remoteFolder (basename lp1))
      match upload_file_to_onedrive_path w tok lp1 remotePath fs with
      | (.ok res, evs, fs1) =>
        match uploadLoopTool w tok remoteFolder rest fs1 with
        | (.ok more, evs2, fs2) => (.ok (res :: more), evs ++ evs2, fs2)
        | (.error e, evs2, fs2) => (.error e, evs ++ evs2, fs2)
      | (.error e, evs, fs1) => (.error e, evs, fs1)
    else (.error (.http 400 ("Local file not found: " ++ lp1)), [], fs)

/-- Per-file loop of the pipeline upload stage (no existence check). -/
def uploadLoopPipeline (w : World) (tok : MsalResult) (folder : String) :
    List String → FS → Except Exc (List String) × List Event × FS
  | [], fs => (.ok [], [], fs)
  | f :: rest, fs =>
    let remotePath := replaceBackslash (pathJoin folder (basename f))
    match upload_file_to_onedrive_path w tok f remotePath fs with
    | (.ok res, evs, fs1) =>
      match uploadLoopPipeline w tok folder rest fs1 with
      | (.ok more, evs2, fs2) => (.ok (res :: more), evs ++ evs2, fs2)
      | (.error e, evs2, fs2) => (.error e, evs ++ evs2, fs2)
    | (.error e, evs, fs1) => (.error e, evs, fs1)

/-- Body of the try block of run_tool: the per-tool branches. -/
def runBody (w : World) (tool : String) (data : Input) (workDir : String) (fs : FS) :
    Except Exc Payload × List Event × FS :=
  if tool = "search_and_download_attachments" then
    match build_gmail_service w fs with
    | (.error e, evs, fs1) => (.error e, evs, fs1)
    | (.ok svc, evs, fs1) =>
      match search_messages_with_attachments w svc (data.query.getD "")
          (data.max_results.getD 0) with
      | (.error e, evs2) => (.error e, evs ++ evs2, fs1)
      | (.ok msgs, evs2) =>
        if msgs.isEmpty then ((.ok { downloaded_files := some [] }), evs ++ evs2, fs1)
        else
          match download_attachments_from_messages w msgs workDir fs1 with
          | (.ok files, evs3, fs2) =>
            (.ok { downloaded_files := some files }, evs ++ evs2 ++ evs3, fs2)
          | (.error e, evs3, fs2) => (.error e, evs ++ evs2 ++ evs3, fs2)
  else if tool = "upload_to_onedrive" then
    match get_onedrive_access_token w fs with
    | (.error e, evs, fs1) => (.error e, evs, fs1)
    | (.ok tok, evs, fs1) =>
      match uploadLoopTool w tok (data.remote_folder_path.getD "")
          (data.local_paths.getD []) fs1 with
      | (.ok ups, evs2, fs2) => (.ok { uploaded := some ups }, evs ++ evs2, fs2)
      | (.error e, evs2, fs2) => (.error e, evs ++ evs2, fs2)
  else if tool = "compress_files" then
    let oz := data.output_zip.getD ""
    let oz1 := if isAbsPath oz then oz else pathJoin workDir oz
    match compress_files (data.local_paths.getD []) oz1 fs with
    | (.ok _, evs, fs1) => (.ok { zip_path := some oz1 }, evs, fs1)
    | (.error e, evs, fs1) => (.error e, evs, fs1)
  else if tool = "send_zip_via_email" then
    match build_gmail_service w fs with
    | (.error e, evs, fs1) => (.error e, evs, fs1)
    | (.ok svc, evs, fs1) =>
      match send_message_with_attachment w svc (data.toAddr.getD "")
          (data.subject.getD "") (data.body.getD "") (data.zip_path.getD "") fs1 with
      | (.ok res, evs2, fs2) => (.ok { result := some res }, evs ++ evs2, fs2)
      | (.error e, evs2, fs2) => (.error e, evs ++ evs2, fs2)
  else if tool = "orchestrate_full_pipeline" then
    match build_gmail_service w fs with
    | (.error e, evs, fs1) => (.error e, evs, fs1)
    | (.ok svc, evs, fs1) =>
      match search_messages_with_attachments w svc (data.query.getD "")
          (data.max_results.getD 0) with
      | (.error e, evs2) => (.error e, evs ++ evs2, fs1)
      | (.ok msgs, evs2) =>
        if msgs.isEmpty then
          (.ok { status := some "no_messages_found", downloaded_files := some [] },
            evs ++ evs2, fs1)
        else
          match download_attachments_from_messages w msgs workDir fs1 with
          | (.error e, evs3, fs2) => (.error e, evs ++ evs2 ++ evs3, fs2)
          | (.ok files, evs3, fs2) =>
            match get_onedrive_access_token w fs2 with
            | (.error e, evs4, fs3) => (.error e, evs ++ evs2 ++ evs3 ++ evs4, fs3)
            | (.ok tok, evs4, fs3) =>
              match uploadLoopPipeline w tok (data.onedrive_folder.getD "") files fs3 with
              | (.error e, evs5, fs4) =>
                (.error e, evs ++ evs2 ++ evs3 ++ evs4 ++ evs5, fs4)
              | (.ok uploaded, evs5, fs4) =>
                let zn := data.zip_name.getD ""
                let zipPath := pathJoin workDir
                  (if strEndsWith zn ".zip" then zn else zn ++ ".zip")
                match compress_files files zipPath fs4 with
                | (.error e, evs6, fs5) =>
                  (.error e, evs ++ evs2 ++ evs3 ++ evs4 ++ evs5 ++ evs6, fs5)
                | (.ok _, evs6, fs5) =>
                  match send_message_with_attachment w svc
                      (data.recipient_email.getD "") ("Files: " ++ zn)
                      "See attached zip." zipPath fs5 with
                  | (.error e, evs7, fs6) =>
                    (.error e, evs ++ evs2 ++ evs3 ++ evs4 ++ evs5 ++ evs6 ++ evs7, fs6)
                  | (.ok sendRes, evs7, fs6) =>
                    (.ok { downloaded_files := some files, uploaded := some uploaded,
                           zip_path := some zipPath, send_result := some sendRes },
                      evs ++ evs2 ++ evs3 ++ evs4 ++ evs5 ++ evs6 ++ evs7, fs6)
  else
    (.error (.http 400 "Unhandled tool"), [], fs)

instance exceptDecEq {ε α : Type} [DecidableEq ε] [DecidableEq α] :
    DecidableEq (Except ε α) := fun
  | .ok a, .ok b =>
    if h : a = b then .isTrue (by rw [h])
    else .isFalse (fun hc => h (by injection hc))
  | .ok _, .error _ => .isFalse (fun hc => Except.noConfusion hc)
  | .error _, .ok _ => .isFalse (fun hc => Except.noConfusion hc)
  | .error e, .error f =>
    if h : e = f then .isTrue (by rw [h])
    else .isFalse (fun hc => h (by injection hc))

/-- Outcome of one run request: the boundary result (HTTPException status and
detail on error), the full event trace, and the final filesystem. -/
structure RunOut where
  result : Except (Nat × String) Payload
  trace : List Event
  fs : FS
deriving DecidableEq

/-- The /mcp/run handler (run_tool): unknown-tool check, required-field
validation, workspace creation, the per-tool body, the blanket exception
handler wrapping every in-body failure as a 500 Tool execution error, and the
finally clause removing the workspace (its own errors swallowed). -/
def run_tool (w : World) (tool : String) (data : Input) (fs : FS) : RunOut :=
  if TOOL_NAMES.contains tool then
    match (requiredOf tool).find? (fun r => !hasField data r) with
    | some r => ⟨.error (400, "Missing required input: " ++ r), [], fs⟩
    | none =>
      let workDir := w.workDir
      match runBody w tool data workDir fs with
      | (.ok p, evs, fs1) =>
        ⟨.ok p, .mkdtemp workDir :: evs ++ [.rmtree workDir], fs1.removeTree workDir⟩
      | (.error e, evs, fs1) =>
        ⟨.error (500, "Tool execution error: " ++ excStr e),
          .mkdtemp workDir :: evs ++ [.rmtree workDir], fs1.removeTree workDir⟩
  else ⟨.error (400, "Unknown tool: " ++ tool), [], fs⟩

/-- Durable token-storage write. -/
def Event.isTokenWrite : Event → Bool
  | .writeTokenStore _ => true
  | _ => false

/-- Upload (PUT) request to the storage endpoint. -/
def Event.isPut : Event → Bool
  | .httpPut _ => true
  | _ => false

/-! ### Concrete fixtures used by witnesses and counterexamples -/

/-- A world with default settings: no client secret (device flow), a valid
Gmail token file when present, successful provider responses. -/
def wBase : World :=
  { settings := {}
    workDir := "/tmp/mcp_work_1"
    cwd := "/cwd"
    tokenFileCreds := ⟨true, false, false⟩
    flowCreds := ⟨true, false, true⟩
    flowCredsJson := "tokenjson"
    gmailHttpError := none
    msgs := []
    attachData := fun _ _ => "data"
    sendOutcome := .ok "sent1"
    msalAccounts := false
    msalSilentResult := none
    msalClientCredResult := ⟨some "tok", "resultdict"⟩
    msalDeviceHasUserCode := true
    msalDeviceResult := ⟨some "dtok", "resultdict"⟩
    putResp := fun _ => (200, "resp") }

/-- wBase with a configured client secret, selecting the client-credentials
grant. -/
def wSecret : World := { wBase with settings := { MSFT_CLIENT_SECRET := "s" } }

/-- A message with two attachment parts sharing one filename, a named part
without an attachmentId, and an unnamed part. -/
def msgDup : Msg :=
  ⟨"m1", true, true,
    [⟨"a.txt", some "A1"⟩, ⟨"a.txt", some "A2"⟩, ⟨"inline.txt", none⟩, ⟨"", some "X"⟩]⟩

/-! ### Helper lemmas -/

theorem list_isPrefixOf_append (l m : List Char) : l.isPrefixOf (l ++ m) = true := by
  induction l with
  | nil => simp [List.isPrefixOf]
  | cons a l ih => simpa [List.isPrefixOf] using ih

theorem strStarts_append (a b : String) : strStarts a (a ++ b) = true := by
  simp only [strStarts, String.data_append]
  exact list_isPrefixOf_append a.data b.data

theorem onedrive_fs_unchanged (w : World) (fs : FS) :
    (get_onedrive_access_token w fs).2.2 = fs := by
  unfold get_onedrive_access_token onedriveAcquireFresh
  split <;> try split
  all_goals first | rfl | (split <;> try split) <;> rfl

theorem onedrive_no_token_write (w : World) (fs : FS) :
    ((get_onedrive_access_token w fs).2.1).all (fun e => !e.isTokenWrite) = true := by
  unfold get_onedrive_access_token onedriveAcquireFresh
  repeat' split
  all_goals simp [Event.isTokenWrite]

theorem onedrive_has_msal (w : World) (fs : FS) :
    ((get_onedrive_access_token w fs).2.1).any Event.isMsal = true := by
  unfold get_onedrive_access_token onedriveAcquireFresh
  repeat' split
  all_goals simp [Event.isMsal]

theorem onedrive_no_put (w : World) (fs : FS) :
    ((get_onedrive_access_token w fs).2.1).all (fun e => !e.isPut) = true := by
  unfold get_onedrive_access_token onedriveAcquireFresh
  repeat' split
  all_goals simp [Event.isPut]

theorem build_gmail_no_sas (w : World) (fs : FS) :
    ((build_gmail_service w fs).2.1).all
      (fun e => !(e.isStorageCall || e.isArchiveCall || e.isSendCall)) = true := by
  simp only [build_gmail_service]
  repeat' split
  all_goals simp [Event.isStorageCall, Event.isArchiveCall, Event.isSendCall]

theorem downloadParts_spec (w : World) (mid folder : String) :
    ∀ (parts : List MsgPart) (fs : FS),
      (downloadParts w mid folder parts fs).1.Nodup ∧
      (∀ p ∈ (downloadParts w mid folder parts fs).1,
        fs.existsPath p = false ∧
        (downloadParts w mid folder parts fs).2.2.existsPath p = true) ∧
      (∀ q, fs.existsPath q = true →
        (downloadParts w mid folder parts fs).2.2.existsPath q = true) := by
  intro parts
  induction parts with
  | nil => intro fs; simp [downloadParts]
  | cons part rest ih =>
    intro fs
    by_cases hf : part.filename ≠ ""
    · cases hA : part.attachmentId with
      | none =>
        simpa [downloadParts, hf, hA] using ih fs
      | some aid =>
        set sp := resolveName fs (pathJoin folder part.filename) with hsp
        set fs1 := fs.insert sp (FileVal.bin (w.attachData mid aid)) with hfs1
        have hins : fs1.existsPath sp = true := FS.existsPath_insert_self fs sp _
        have hfresh : fs.existsPath sp = false := resolveName_not_exists fs _
        obtain ⟨ihnd, ihmem, ihmono⟩ := ih fs1
        have hred : downloadParts w mid folder (part :: rest) fs
            = (sp :: (downloadParts w mid folder rest fs1).1,
               .gmailAttachGet mid aid :: .fsWrite sp :: (downloadParts w mid folder rest fs1).2.1,
               (downloadParts w mid folder rest fs1).2.2) := by
          simp [downloadParts, hf, hA, hsp, hfs1]
        rw [hred]
        refine ⟨?_, ?_, ?_⟩
        · refine List.Nodup.cons ?_ ihnd
          intro hmem
          have := (ihmem sp hmem).1
          rw [hins] at this
          cases this
        · intro p hp
          rcases List.mem_cons.mp hp with hph | hpt
          · subst hph
            exact ⟨hfresh, ihmono sp hins⟩
          · refine ⟨?_, (ihmem p hpt).2⟩
            have h1 := (ihmem p hpt).1
            cases hb : fs.existsPath p with
            | false => rfl
            | true =>
              have := FS.existsPath_insert_mono fs sp p (FileVal.bin (w.attachData mid aid)) hb
              rw [← hfs1] at this
              rw [this] at h1
              cases h1
        · intro q hq
          exact ihmono q (by
            have := FS.existsPath_insert_mono fs sp q (FileVal.bin (w.attachData mid aid)) hq
            rwa [← hfs1] at this)
    · simpa [downloadParts, hf] using ih fs



theorem downloadMsgs_spec (w : World) (folder : String) :
    ∀ (msgs : List Msg) (fs : FS) (files : List String) (evs : List Event) (fs2 : FS),
      downloadMsgs w folder msgs fs = (.ok files, evs, fs2) →
      files.Nodup ∧
      (∀ p ∈ files, fs.existsPath p = false ∧ fs2.existsPath p = true) ∧
      (∀ q, fs.existsPath q = true → fs2.existsPath q = true) := by
  intro msgs
  induction msgs with
  | nil =>
    intro fs files evs fs2 h
    simp only [downloadMsgs, Prod.mk.injEq, Except.ok.injEq] at h
    obtain ⟨h1, _, h3⟩ := h
    subst h1; subst h3
    exact ⟨List.nodup_nil, by simp, fun q hq => hq⟩
  | cons m rest ih =>
    intro fs files evs fs2 h
    cases hm : m.payloadPresent with
    | false =>
      simp only [downloadMsgs, hm] at h
      cases h
    | true =>
      set parts := if m.partsPresent then m.parts else [] with hparts
      set out1 := downloadParts w m.id folder parts fs with hout1
      obtain ⟨pnd, pmem, pmono⟩ := downloadParts_spec w m.id folder parts fs
      rcases hrec : downloadMsgs w folder rest out1.2.2 with ⟨r2, evs2x, fs2x⟩
      cases r2 with
      | error e =>
        have hred : downloadMsgs w folder (m :: rest) fs = (.error e, out1.2.1 ++ evs2x, fs2x) := by
          simp only [downloadMsgs, hm, if_true, ← hparts, ← hout1, hrec]
        rw [hred] at h
        cases h
      | ok files2 =>
        have hred : downloadMsgs w folder (m :: rest) fs
            = (.ok (out1.1 ++ files2), out1.2.1 ++ evs2x, fs2x) := by
          simp only [downloadMsgs, hm, if_true, ← hparts, ← hout1, hrec]
        rw [hred] at h
        simp only [Prod.mk.injEq, Except.ok.injEq] at h
        obtain ⟨h1, _, h3⟩ := h
        subst h1; subst h3
        obtain ⟨rnd, rmem, rmono⟩ := ih out1.2.2 files2 evs2x fs2x hrec
        refine ⟨?_, ?_, ?_⟩
        · refine List.Nodup.append pnd rnd ?_
          intro p hp1 hp2
          have hA := (pmem p hp1).2
          have hB := (rmem p hp2).1
          rw [hA] at hB
          cases hB
        · intro p hp
          rcases List.mem_append.mp hp with hp1 | hp2
          · exact ⟨(pmem p hp1).1, rmono p (pmem p hp1).2⟩
          · refine ⟨?_, (rmem p hp2).2⟩
            have h1 := (rmem p hp2).1
            cases hb : fs.existsPath p with
            | false => rfl
            | true =>
              have := pmono p hb
              rw [this] at h1
              cases h1
        · intro q hq
          exact rmono q (pmono q hq)

theorem downloadParts_length (w : World) (mid folder : String) :
    ∀ (parts : List MsgPart) (fs : FS),
      (downloadParts w mid folder parts fs).1.length
        = (parts.filter (fun p => p.filename ≠ "" && p.attachmentId.isSome)).length := by
  intro parts
  induction parts with
  | nil => intro fs; simp [downloadParts]
  | cons part rest ih =>
    intro fs
    by_cases hf : part.filename ≠ ""
    · cases hA : part.attachmentId with
      | none => simp [downloadParts, hf, hA, List.filter, ih fs]
      | some aid => simp [downloadParts, hf, hA, List.filter, ih]
    · simp [downloadParts, hf, List.filter, ih fs]

/-- Number of parts of a message that the download loop fetches. -/
def countFetchable (m : Msg) : Nat :=
  ((if m.partsPresent then m.parts else []).filter
    (fun p => p.filename ≠ "" && p.attachmentId.isSome)).length

theorem downloadMsgs_length (w : World) (folder : String) :
    ∀ (msgs : List Msg) (fs : FS) (files : List String) (evs : List Event) (fs2 : FS),
      downloadMsgs w folder msgs fs = (.ok files, evs, fs2) →
      files.length = (msgs.map countFetchable).sum := by
  intro msgs
  induction msgs with
  | nil =>
    intro fs files evs fs2 h
    simp only [downloadMsgs, Prod.mk.injEq, Except.ok.injEq] at h
    obtain ⟨h1, _, _⟩ := h
    subst h1; simp
  | cons m rest ih =>
    intro fs files evs fs2 h
    cases hm : m.payloadPresent with
    | false => simp only [downloadMsgs, hm] at h; cases h
    | true =>
      set parts := if m.partsPresent then m.parts else [] with hparts
      set out1 := downloadParts w m.id folder parts fs with hout1
      rcases hrec : downloadMsgs w folder rest out1.2.2 with ⟨r2, evs2x, fs2x⟩
      cases r2 with
      | error e =>
        have hred : downloadMsgs w folder (m :: rest) fs = (.error e, out1.2.1 ++ evs2x, fs2x) := by
          simp only [downloadMsgs, hm, if_true, ← hparts, ← hout1, hrec]
        rw [hred] at h; cases h
      | ok files2 =>
        have hred : downloadMsgs w folder (m :: rest) fs
            = (.ok (out1.1 ++ files2), out1.2.1 ++ evs2x, fs2x) := by
          simp only [downloadMsgs, hm, if_true, ← hparts, ← hout1, hrec]
        rw [hred] at h
        simp only [Prod.mk.injEq, Except.ok.injEq] at h
        obtain ⟨h1, _, _⟩ := h
        subst h1
        have hlen := downloadParts_length w m.id folder parts fs
        rw [← hout1] at hlen
        simp only [List.length_append, List.map_cons, List.sum_cons, hlen,
          ih out1.2.2 files2 evs2x fs2x hrec]
        simp [countFetchable, hparts]

/-- A filesystem holding a valid Gmail token file under the default settings. -/
def fsTok : FS := ⟨[("token.json", FileVal.bin "tok")]⟩

/-- Destination directory already holding a file named a.txt. -/
def fsDup : FS := ⟨[("/tmp/mcp_work_1/a.txt", FileVal.bin "old")]⟩

/-- Input for a full-pipeline invocation with all required fields. -/
def pipelineInput : Input :=
  { query := some "q", max_results := some 10, onedrive_folder := some "F",
    recipient_email := some "r@x.com", zip_name := some "z" }

/-! ### Claims -/

/-- C1: when the full pipeline's search stage yields zero matching messages,
the invocation short-circuits to success with the explicit no_messages_found
status and an empty downloaded_files list, with the upload, archive and send
fields of the payload absent, and the event trace contains no storage call, no
archive creation and no send call; it is never reported as an error. -/
theorem C1_pipeline_no_messages (w : World) (data : Input) (fs : FS) (svc : GmailService)
    (hq : data.query.isSome = true) (hmr : data.max_results.isSome = true)
    (hof : data.onedrive_folder.isSome = true) (hre : data.recipient_email.isSome = true)
    (hzn : data.zip_name.isSome = true)
    (hbuild : (build_gmail_service w fs).1 = .ok svc)
    (herr : w.gmailHttpError = none)
    (hzero : w.msgs.filter hasNamedPart = []) :
    (run_tool w "orchestrate_full_pipeline" data fs).result
      = .ok { status := some "no_messages_found", downloaded_files := some [] } ∧
    (run_tool w "orchestrate_full_pipeline" data fs).trace.all
      (fun e => !(e.isStorageCall || e.isArchiveCall || e.isSendCall)) = true := by
  have hval : (requiredOf "orchestrate_full_pipeline").find?
      (fun r => !hasField data r) = none := by
    simp [requiredOf, hasField, hq, hmr, hof, hre, hzn, List.find?]
  have htool : TOOL_NAMES.contains "orchestrate_full_pipeline" = true := by decide
  have hsas := build_gmail_no_sas w fs
  rcases hB : build_gmail_service w fs with ⟨r1, evs1, fs1⟩
  rw [hB] at hbuild hsas
  simp only at hbuild hsas
  subst hbuild
  constructor
  · simp only [run_tool, htool, if_true, hval, runBody]
    rw [hB]
    simp [search_messages_with_attachments, herr, hzero]
  · simp only [run_tool, htool, if_true, hval, runBody]
    rw [hB]
    simp [search_messages_with_attachments, herr, hzero, List.all_eq_true]
    refine ⟨by simp [Event.isStorageCall, Event.isArchiveCall, Event.isSendCall], ?_,
      by simp [Event.isStorageCall, Event.isArchiveCall, Event.isSendCall], ?_,
      by simp [Event.isStorageCall, Event.isArchiveCall, Event.isSendCall]⟩
    · intro x hx
      rw [List.all_eq_true] at hsas
      have := hsas x hx
      simpa using this
    · intro a _
      simp [Event.isStorageCall, Event.isArchiveCall, Event.isSendCall]

/-- Witness for C1 at a concrete world with a valid token file and an empty
message list. -/
theorem C1_witness :
    (run_tool wBase "orchestrate_full_pipeline" pipelineInput fsTok).result
      = .ok { status := some "no_messages_found", downloaded_files := some [] } ∧
    (run_tool wBase "orchestrate_full_pipeline" pipelineInput fsTok).trace.all
      (fun e => !(e.isStorageCall || e.isArchiveCall || e.isSendCall)) = true :=
  C1_pipeline_no_messages wBase pipelineInput fsTok ⟨⟨true, false, false⟩⟩
    (by decide) (by decide) (by decide) (by decide) (by decide)
    (by decide) (by decide) (by decide)

/-- C2 counterexample: calling upload_to_onedrive with a nonexistent local
path does fail with the local-file-not-found diagnostic, but the failing run's
trace contains a network call (the MSAL token acquisition at line 145 of
server.py runs before the existence check at line 150), refuting the claim
that the failure occurs before any network call. -/
theorem C2_counterexample :
    (run_tool wSecret "upload_to_onedrive"
      { local_paths := some ["/nope"], remote_folder_path := some "F" } ⟨[]⟩).result
      = .error (500, "Tool execution error: 400: Local file not found: /nope") ∧
    ((run_tool wSecret "upload_to_onedrive"
      { local_paths := some ["/nope"], remote_folder_path := some "F" } ⟨[]⟩).trace.any
        (fun e => e.isNetwork)) = true := by decide

/-- C2 amended: with a nonexistent first local path, upload_to_onedrive fails
with a local-file-not-found error (surfaced as a 500 tool-execution error)
before any upload request is issued, but only after the OneDrive token
acquisition, whose network traffic appears in the trace. -/
theorem C2_amended (w : World) (data : Input) (fs : FS) (lp : String)
    (rest : List String) (tok : MsalResult)
    (hlp : data.local_paths = some (lp :: rest))
    (hrf : data.remote_folder_path.isSome = true)
    (htok : (get_onedrive_access_token w fs).1 = .ok tok)
    (hmiss : fs.existsPath (if isAbsPath lp then lp else pathJoin w.cwd lp) = false) :
    (run_tool w "upload_to_onedrive" data fs).result
      = .error (500, "Tool execution error: "
          ++ excStr (.http 400 ("Local file not found: "
            ++ (if isAbsPath lp then lp else pathJoin w.cwd lp)))) ∧
    (run_tool w "upload_to_onedrive" data fs).trace.all (fun e => !e.isPut) = true ∧
    (run_tool w "upload_to_onedrive" data fs).trace.any Event.isMsal = true := by
  have hval : (requiredOf "upload_to_onedrive").find? (fun r => !hasField data r) = none := by
    simp [requiredOf, hasField, hlp, hrf, List.find?]
  have htool : TOOL_NAMES.contains "upload_to_onedrive" = true := by decide
  have hfs := onedrive_fs_unchanged w fs
  have hmsal := onedrive_has_msal w fs
  have hnw := onedrive_no_put w fs
  rcases hT : get_onedrive_access_token w fs with ⟨r1, evs1, fs1⟩
  rw [hT] at htok hfs hmsal hnw
  simp only at htok hfs hmsal hnw
  subst htok
  rw [hfs] at hT
  have hloop : uploadLoopTool w tok (data.remote_folder_path.getD "") (lp :: rest) fs
      = (.error (.http 400 ("Local file not found: "
          ++ (if isAbsPath lp then lp else pathJoin w.cwd lp))), [], fs) := by
    simp only [uploadLoopTool]
    rw [hmiss]
    simp
  have hrun : run_tool w "upload_to_onedrive" data fs
      = ⟨.error (500, "Tool execution error: "
            ++ excStr (.http 400 ("Local file not found: "
              ++ (if isAbsPath lp then lp else pathJoin w.cwd lp)))),
         .mkdtemp w.workDir :: (evs1 ++ []) ++ [.rmtree w.workDir],
         fs.removeTree w.workDir⟩ := by
    simp only [run_tool, htool, if_true, hval, runBody]
    rw [hT, hlp]
    simp only [Option.getD_some, hloop]
    simp
  rw [hrun]
  refine ⟨rfl, ?_, ?_⟩
  · simp only [List.all_cons, List.all_append, List.all_nil, Event.isPut]
    simp only [Bool.not_false, Bool.true_and, Bool.and_true]
    rw [List.all_eq_true] at hnw ⊢
    intro x hx
    have := hnw x hx
    simpa [Event.isPut] using this
  · simp only [List.any_cons, List.any_append, List.any_nil]
    rw [hmsal]
    simp

/-- Witness for C2 amended at the concrete client-credentials world. -/
theorem C2_amended_witness :
    (run_tool wSecret "upload_to_onedrive"
      { local_paths := some ["/nope"], remote_folder_path := some "F" } ⟨[]⟩).result
      = .error (500, "Tool execution error: "
          ++ excStr (.http 400 ("Local file not found: "
            ++ (if isAbsPath "/nope" then "/nope" else pathJoin wSecret.cwd "/nope")))) ∧
    (run_tool wSecret "upload_to_onedrive"
      { local_paths := some ["/nope"], remote_folder_path := some "F" } ⟨[]⟩).trace.all
        (fun e => !e.isPut) = true ∧
    (run_tool wSecret "upload_to_onedrive"
      { local_paths := some ["/nope"], remote_folder_path := some "F" } ⟨[]⟩).trace.any
        Event.isMsal = true :=
  C2_amended wSecret { local_paths := some ["/nope"], remote_folder_path := some "F" }
    ⟨[]⟩ "/nope" [] ⟨some "tok", "resultdict"⟩ (by decide) (by decide) (by decide) (by decide)

/-- C3 counterexample: with a single nonexistent input, compress_files does
fail naming that path, but an archive file (created when the ZipFile was
opened for writing) remains at the output path, refuting the claim that no
archive file is produced there. -/
theorem C3_counterexample :
    (compress_files ["/nope"] "/out.zip" ⟨[]⟩).1
      = .error (.fileNotFound "File does not exist: /nope") ∧
    (compress_files ["/nope"] "/out.zip" ⟨[]⟩).2.2.existsPath "/out.zip" = true := by
  decide

/-- C3 amended: when some input path does not exist, compress_files fails with
a FileNotFoundError naming the first such path, but an archive file is left at
the output path, holding entries for exactly the inputs preceding the first
missing one (the existence checks see the freshly created archive file
itself). -/
theorem C3_amended (paths : List String) (outputZip : String) (fs : FS) (p : String)
    (hfind : paths.find? (fun f => !((fs.insert outputZip (.zip [])).existsPath f))
      = some p) :
    compress_files paths outputZip fs
      = (.error (.fileNotFound ("File does not exist: " ++ p)), [.zipCreate outputZip],
         fs.insert outputZip (.zip ((paths.takeWhile
           (fun g => (fs.insert outputZip (.zip [])).existsPath g)).map basename))) ∧
    (compress_files paths outputZip fs).2.2.existsPath outputZip = true := by
  have h1 : compress_files paths outputZip fs
      = (.error (.fileNotFound ("File does not exist: " ++ p)), [.zipCreate outputZip],
         fs.insert outputZip (.zip ((paths.takeWhile
           (fun g => (fs.insert outputZip (.zip [])).existsPath g)).map basename))) := by
    simp only [compress_files, hfind]
  refine ⟨h1, ?_⟩
  rw [h1]
  exact FS.existsPath_insert_self fs outputZip _

/-- Witness for C3 amended at the concrete single-missing-input call. -/
theorem C3_amended_witness :
    compress_files ["/nope"] "/out.zip" ⟨[]⟩
      = (.error (.fileNotFound ("File does not exist: " ++ "/nope")),
         [.zipCreate "/out.zip"],
         FS.insert ⟨[]⟩ "/out.zip" (.zip ((["/nope"].takeWhile
           (fun g => (FS.insert ⟨[]⟩ "/out.zip" (.zip [])).existsPath g)).map basename))) ∧
    (compress_files ["/nope"] "/out.zip" ⟨[]⟩).2.2.existsPath "/out.zip" = true :=
  C3_amended ["/nope"] "/out.zip" ⟨[]⟩ "/nope" (by decide)

/-- C4: an invocation of a registered tool that omits some required input
field fails with status 400 naming the first absent field in schema order,
with an empty event trace (so no external call and no workspace creation) and
an unchanged filesystem. -/
theorem C4_missing_input (w : World) (tool : String) (data : Input) (fs : FS) (r : String)
    (htool : TOOL_NAMES.contains tool = true)
    (hfind : (requiredOf tool).find? (fun s => !hasField data s) = some r) :
    run_tool w tool data fs = ⟨.error (400, "Missing required input: " ++ r), [], fs⟩ := by
  simp only [run_tool, htool, if_true, hfind]

/-- Witness for C4: compress_files invoked without output_zip. -/
theorem C4_witness :
    run_tool wBase "compress_files" { local_paths := some ["/a"] } ⟨[]⟩
      = ⟨.error (400, "Missing required input: " ++ "output_zip"), [], ⟨[]⟩⟩ :=
  C4_missing_input wBase "compress_files" { local_paths := some ["/a"] } ⟨[]⟩
    "output_zip" (by decide) (by decide)

/-- C5: whenever download_attachments_from_messages returns successfully, the
returned file paths are pairwise distinct and none of them denotes a file that
existed before the invocation, so the numeric-suffix collision scan (name,
name_1.ext, name_2.ext, ... up to the first unused name) never overwrites a
pre-existing file or a file written earlier in the same invocation. -/
theorem C5_collision_resolution (w : World) (msgs : List Msg) (folder : String)
    (fs : FS) (files : List String) (evs : List Event) (fs2 : FS)
    (h : download_attachments_from_messages w msgs folder fs = (.ok files, evs, fs2)) :
    files.Nodup ∧ ∀ p ∈ files, fs.existsPath p = false := by
  obtain ⟨hnd, hmem, _⟩ := downloadMsgs_spec w folder msgs fs files evs fs2 h
  exact ⟨hnd, fun p hp => (hmem p hp).1⟩

/-- Witness for C5: two attachments named a.txt with a.txt already present in
the destination; the chosen paths a_1.txt and a_2.txt are distinct and fresh. -/
theorem C5_witness :
    ["/tmp/mcp_work_1/a_1.txt", "/tmp/mcp_work_1/a_2.txt"].Nodup ∧
    ∀ p ∈ ["/tmp/mcp_work_1/a_1.txt", "/tmp/mcp_work_1/a_2.txt"],
      fsDup.existsPath p = false :=
  C5_collision_resolution wBase [msgDup] "/tmp/mcp_work_1" fsDup
    ["/tmp/mcp_work_1/a_1.txt", "/tmp/mcp_work_1/a_2.txt"]
    [.gmailAttachGet "m1" "A1", .fsWrite "/tmp/mcp_work_1/a_1.txt",
     .gmailAttachGet "m1" "A2", .fsWrite "/tmp/mcp_work_1/a_2.txt"]
    ⟨[("/tmp/mcp_work_1/a_2.txt", FileVal.bin "data"),
      ("/tmp/mcp_work_1/a_1.txt", FileVal.bin "data"),
      ("/tmp/mcp_work_1/a.txt", FileVal.bin "old")]⟩
    (by decide)

/-- C6 counterexample: a message with one named part whose body has no
attachmentId yields no downloaded file and an empty returned sequence, so it
is not the case that one file is fetched and written for every named part. -/
theorem C6_counterexample :
    download_attachments_from_messages wBase [⟨"m1", true, true, [⟨"a.txt", none⟩]⟩]
      "/d" ⟨[]⟩ = (.ok [], [], ⟨[]⟩) := by decide

/-- C6 amended: on success, download_attachments_from_messages returns one
file path per named part that also carries an attachmentId (parts with an
empty or missing filename, and named parts whose body lacks an attachmentId,
are skipped). -/
theorem C6_amended (w : World) (msgs : List Msg) (folder : String)
    (fs : FS) (files : List String) (evs : List Event) (fs2 : FS)
    (h : download_attachments_from_messages w msgs folder fs = (.ok files, evs, fs2)) :
    files.length = (msgs.map countFetchable).sum :=
  downloadMsgs_length w folder msgs fs files evs fs2 h

/-- Witness for C6 amended: msgDup has four parts of which two are fetchable,
and exactly two files come back. -/
theorem C6_amended_witness :
    (["/tmp/mcp_work_1/a_1.txt", "/tmp/mcp_work_1/a_2.txt"] : List String).length
      = ([msgDup].map countFetchable).sum :=
  C6_amended wBase [msgDup] "/tmp/mcp_work_1" fsDup
    ["/tmp/mcp_work_1/a_1.txt", "/tmp/mcp_work_1/a_2.txt"]
    [.gmailAttachGet "m1" "A1", .fsWrite "/tmp/mcp_work_1/a_1.txt",
     .gmailAttachGet "m1" "A2", .fsWrite "/tmp/mcp_work_1/a_2.txt"]
    ⟨[("/tmp/mcp_work_1/a_2.txt", FileVal.bin "data"),
      ("/tmp/mcp_work_1/a_1.txt", FileVal.bin "data"),
      ("/tmp/mcp_work_1/a.txt", FileVal.bin "old")]⟩
    (by decide)

/-- A filesystem holding only the Google credentials file, forcing the
interactive Gmail flow. -/
def fsCred : FS := ⟨[("credentials.json", FileVal.bin "c")]⟩

/-- C7 counterexample: a successful OneDrive token acquisition (client
credentials) whose event trace contains no durable token-storage write,
refuting the claim that every successful acquisition is persisted before the
token is returned. -/
theorem C7_counterexample :
    (get_onedrive_access_token wSecret ⟨[]⟩).1 = .ok ⟨some "tok", "resultdict"⟩ ∧
    ((get_onedrive_access_token wSecret ⟨[]⟩).2.1).all (fun e => !e.isTokenWrite) = true := by
  decide

/-- C7 amended: durable token persistence happens only on the Gmail
interactive grant: get_onedrive_access_token never writes token storage, while
build_gmail_service, whenever it takes the interactive flow (no token file, or
an invalid expired refreshable one — the refresh attempt itself always fails on
the missing Request import), writes the token file before returning the
service. -/
theorem C7_amended (w : World) (fs : FS)
    (hcred : fs.existsPath w.settings.GOOGLE_CREDENTIALS_FILE = true)
    (hinter : fs.existsPath w.settings.GOOGLE_TOKEN_FILE = false ∨
      (w.tokenFileCreds.valid = false ∧ w.tokenFileCreds.expired = true ∧
        w.tokenFileCreds.hasRefreshToken = true)) :
    ((get_onedrive_access_token w fs).2.1).all (fun e => !e.isTokenWrite) = true ∧
    build_gmail_service w fs
      = (.ok ⟨w.flowCreds⟩,
         [.oauthLocalFlow, .writeTokenStore w.settings.GOOGLE_TOKEN_FILE, .buildService],
         fs.insert w.settings.GOOGLE_TOKEN_FILE (.bin w.flowCredsJson)) := by
  refine ⟨onedrive_no_token_write w fs, ?_⟩
  rcases hinter with h | ⟨h1, h2, h3⟩
  · simp [build_gmail_service, h, hcred]
  · cases ht : fs.existsPath w.settings.GOOGLE_TOKEN_FILE <;>
      simp [build_gmail_service, ht, h1, h2, h3, hcred]

/-- Witness for C7 amended: default settings, only credentials.json present. -/
theorem C7_amended_witness :
    ((get_onedrive_access_token wBase fsCred).2.1).all (fun e => !e.isTokenWrite) = true ∧
    build_gmail_service wBase fsCred
      = (.ok ⟨wBase.flowCreds⟩,
         [.oauthLocalFlow, .writeTokenStore wBase.settings.GOOGLE_TOKEN_FILE,
          .buildService],
         fsCred.insert wBase.settings.GOOGLE_TOKEN_FILE (.bin wBase.flowCredsJson)) :=
  C7_amended wBase fsCred (by decide) (Or.inl (by decide))

/-- C8 counterexample: an archive-stage failure surfaces as a single 500
error whose detail is the constant wrap Tool execution error plus the original
diagnostic; no stage name (search, download, upload, archive, zip, compress or
send) occurs anywhere in the detail, refuting the claim that the error is
wrapped with the failing stage's name. -/
theorem C8_counterexample :
    (run_tool wBase "compress_files"
      { local_paths := some ["/nope"], output_zip := some "/out.zip" } ⟨[]⟩).result
      = .error (500, "Tool execution error: File does not exist: /nope") ∧
    (["search", "download", "upload", "archive", "zip", "compress", "send"].all
      (fun s => !strContains "Tool execution error: File does not exist: /nope" s))
      = true := by
  decide

/-- C8 amended: every failure past input validation yields exactly one
structured error response, of status 500, whose detail is the constant prefix
Tool execution error followed by the original diagnostic message (not the
failing stage's name); being an error, the response carries no per-stage
partial results. -/
theorem C8_amended (w : World) (tool : String) (data : Input) (fs : FS) (e : Exc)
    (htool : TOOL_NAMES.contains tool = true)
    (hval : (requiredOf tool).find? (fun r => !hasField data r) = none)
    (hbody : (runBody w tool data w.workDir fs).1 = .error e) :
    (run_tool w tool data fs).result
      = .error (500, "Tool execution error: " ++ excStr e) := by
  rcases hB : runBody w tool data w.workDir fs with ⟨r, evs, fs1⟩
  rw [hB] at hbody
  simp only at hbody
  subst hbody
  simp only [run_tool, htool, if_true, hval, hB]

/-- Witness for C8 amended at the concrete compress failure. -/
theorem C8_amended_witness :
    (run_tool wBase "compress_files"
      { local_paths := some ["/nope"], output_zip := some "/out.zip" } ⟨[]⟩).result
      = .error (500, "Tool execution error: "
          ++ excStr (.fileNotFound "File does not exist: /nope")) :=
  C8_amended wBase "compress_files"
    { local_paths := some ["/nope"], output_zip := some "/out.zip" } ⟨[]⟩
    (.fileNotFound "File does not exist: /nope") (by decide) (by decide) (by decide)

/-- C9: a compress_files invocation with a relative output_zip and all inputs
existing succeeds with a zip_path inside the per-invocation workspace, and the
finally clause removes the workspace before the response is returned, so the
file at the reported zip_path no longer exists in the final filesystem. -/
theorem C9_relative_zip_deleted (w : World) (data : Input) (fs : FS)
    (lps : List String) (oz : String)
    (hlps : data.local_paths = some lps)
    (hoz : data.output_zip = some oz)
    (habs : isAbsPath oz = false)
    (hwd1 : w.workDir ≠ "")
    (hwd2 : endsWithSlash w.workDir = false)
    (hex : ∀ p ∈ lps, fs.existsPath p = true) :
    (run_tool w "compress_files" data fs).result
      = .ok { zip_path := some (pathJoin w.workDir oz) } ∧
    strStarts (w.workDir ++ "/") (pathJoin w.workDir oz) = true ∧
    (run_tool w "compress_files" data fs).fs.existsPath (pathJoin w.workDir oz)
      = false := by
  have hval : (requiredOf "compress_files").find? (fun r => !hasField data r) = none := by
    simp [requiredOf, hasField, hlps, hoz, List.find?]
  have htool : TOOL_NAMES.contains "compress_files" = true := by decide
  have hjoin : pathJoin w.workDir oz = (w.workDir ++ "/") ++ oz := by
    simp [pathJoin, habs, hwd1, hwd2]
  have hpre : strStarts (w.workDir ++ "/") (pathJoin w.workDir oz) = true := by
    rw [hjoin]
    exact strStarts_append _ _
  have hfind : lps.find?
      (fun f => !((fs.insert (pathJoin w.workDir oz) (.zip [])).existsPath f)) = none := by
    rw [List.find?_eq_none]
    intro x hx
    have h2 := FS.existsPath_insert_mono fs (pathJoin w.workDir oz) x (.zip []) (hex x hx)
    simp [h2]
  have hcomp : compress_files lps (pathJoin w.workDir oz) fs
      = (.ok (), [.zipCreate (pathJoin w.workDir oz)],
         fs.insert (pathJoin w.workDir oz) (.zip (lps.map basename))) := by
    simp only [compress_files, hfind]
  have hrun : run_tool w "compress_files" data fs
      = ⟨.ok { zip_path := some (pathJoin w.workDir oz) },
         .mkdtemp w.workDir :: [.zipCreate (pathJoin w.workDir oz)] ++ [.rmtree w.workDir],
         (fs.insert (pathJoin w.workDir oz) (.zip (lps.map basename))).removeTree
           w.workDir⟩ := by
    simp only [run_tool, htool, if_true, hval, runBody]
    rw [hoz, hlps]
    simp [Option.getD_some, habs, hcomp]
  rw [hrun]
  exact ⟨rfl, hpre, FS.not_existsPath_removeTree _ w.workDir _ hpre⟩

/-- Witness for C9 at the concrete relative-output invocation. -/
theorem C9_witness :
    (run_tool wBase "compress_files"
      { local_paths := some ["/a/x.txt"], output_zip := some "out.zip" }
      ⟨[("/a/x.txt", FileVal.bin "hi")]⟩).result
      = .ok { zip_path := some (pathJoin wBase.workDir "out.zip") } ∧
    strStarts (wBase.workDir ++ "/") (pathJoin wBase.workDir "out.zip") = true ∧
    (run_tool wBase "compress_files"
      { local_paths := some ["/a/x.txt"], output_zip := some "out.zip" }
      ⟨[("/a/x.txt", FileVal.bin "hi")]⟩).fs.existsPath
        (pathJoin wBase.workDir "out.zip") = false :=
  C9_relative_zip_deleted wBase
    { local_paths := some ["/a/x.txt"], output_zip := some "out.zip" }
    ⟨[("/a/x.txt", FileVal.bin "hi")]⟩ ["/a/x.txt"] "out.zip"
    (by decide) (by decide) (by decide) (by decide) (by decide) (by decide)

/-- C10: every error response of run_tool is either a pre-validation 400
(unknown tool, or a missing required input) or a 500 whose detail starts with
Tool execution error; in particular the in-branch HTTPException 400 for a
missing local file is re-surfaced by the blanket handler as a 500. -/
theorem C10_error_status_classification (w : World) (tool : String) (data : Input)
    (fs : FS) (s : Nat) (d : String)
    (h : (run_tool w tool data fs).result = .error (s, d)) :
    (s = 400 ∧ ((TOOL_NAMES.contains tool = false ∧ d = "Unknown tool: " ++ tool) ∨
      (∃ r, (requiredOf tool).find? (fun x => !hasField data x) = some r ∧
        d = "Missing required input: " ++ r))) ∨
    (s = 500 ∧ strStarts "Tool execution error: " d = true) := by
  by_cases htool : TOOL_NAMES.contains tool = true
  · cases hval : (requiredOf tool).find? (fun x => !hasField data x) with
    | some r =>
      have hrun : run_tool w tool data fs
          = ⟨.error (400, "Missing required input: " ++ r), [], fs⟩ := by
        simp only [run_tool, htool, if_true, hval]
      rw [hrun] at h
      simp only [Except.error.injEq, Prod.mk.injEq] at h
      obtain ⟨hs, hd⟩ := h
      exact Or.inl ⟨hs.symm, Or.inr ⟨r, rfl, hd.symm⟩⟩
    | none =>
      rcases hB : runBody w tool data w.workDir fs with ⟨r, evs, fs1⟩
      cases r with
      | ok p =>
        have hrun : (run_tool w tool data fs).result = .ok p := by
          simp only [run_tool, htool, if_true, hval, hB]
        rw [hrun] at h
        cases h
      | error e =>
        have hrun : (run_tool w tool data fs).result
            = .error (500, "Tool execution error: " ++ excStr e) := by
          simp only [run_tool, htool, if_true, hval, hB]
        rw [hrun] at h
        simp only [Except.error.injEq, Prod.mk.injEq] at h
        obtain ⟨hs, hd⟩ := h
        refine Or.inr ⟨hs.symm, ?_⟩
        rw [← hd]
        exact strStarts_append _ _
  · have hf : TOOL_NAMES.contains tool = false := by
      cases hb : TOOL_NAMES.contains tool with
      | false => rfl
      | true => exact absurd hb htool
    have hrun : run_tool w tool data fs
        = ⟨.error (400, "Unknown tool: " ++ tool), [], fs⟩ := by
      unfold run_tool
      rw [hf, if_neg (by decide : ¬(false = true))]
    rw [hrun] at h
    simp only [Except.error.injEq, Prod.mk.injEq] at h
    obtain ⟨hs, hd⟩ := h
    exact Or.inl ⟨hs.symm, Or.inl ⟨hf, hd.symm⟩⟩

/-- Witness for C10 at a concrete unknown-tool request. -/
theorem C10_witness :
    (400 = 400 ∧ ((TOOL_NAMES.contains "nope" = false ∧
        "Unknown tool: nope" = "Unknown tool: " ++ "nope") ∨
      (∃ r, (requiredOf "nope").find?
          (fun x => !hasField ({} : Input) x) = some r ∧
        "Unknown tool: nope" = "Missing required input: " ++ r))) ∨
    (400 = 500 ∧ strStarts "Tool execution error: " "Unknown tool: nope" = true) :=
  C10_error_status_classification wBase "nope" {} ⟨[]⟩ 400 "Unknown tool: nope" (by decide)

end EmailOnedrive
